import Mathlib

/-!
# Verification of the rust-tikzjax host kernel and DVI→SVG backend

A shallow embedding, in Lean 4, of the parts of the `rust-tikzjax`
repository that the specification's claims are about:

* `src/filesystem.rs` — the in-memory `VirtualFileSystem`, its
  descriptor table of `FilePointer`s, and its read/write primitives;
* `src/texjax_imports.rs` — the host functions imported by the
  WASM-compiled TeX engine (`eof`, `eoln`, `erstat`, `get`, `put`,
  `input_ln`, `print_char`, `print_string`, `close`, …) together with
  `clean_filename`;
* `rust-tikz/src/dvi2svg/svgmachine.rs` — the SVG device machine
  (color stack, position stack, page boundaries);
* `rust_tikz/src/wasm_runner.rs` — the `WasmRunner` front end
  (`get_messages` / `get_log` and the has-run flag).

Modelling conventions:

* Bytes are `Nat` (every value produced by the code is `< 256`).
* Rust `HashMap<String, Vec<u8>>` is an association list
  `List (String × List Byte)`; `insert` replaces the entry for the key.
* Rust `i32` indices are `Int`, `usize` quantities are `Nat`.
  Where Rust wraps `u32` arithmetic, we take `% 2^32` explicitly.
* Guest linear memory is a total function `Nat → Byte` (the guest
  memory is a fixed 1100-page region; `Memory::write` failures are out
  of scope of every claim).
* A Rust `panic!` / `.unwrap()` failure (a trap of the host call) is
  modelled by an `Option` result being `none`.
* `println!` logging is dropped, with one exception kept: the debug
  print at the end of `input_ln` calls
  `String::from_utf8(input_line.clone()).unwrap()` on the stripped
  line, so its panic on non-UTF-8 bytes is part of the import's
  behaviour and is modelled (a `validUtf8` guard; `none` on failure).
-/

abbrev Byte := Nat

/-- `FileType` from `src/filesystem.rs` (the generic `FileType<T>`
instantiated at `String`, the only instantiation stored in the VFS). -/
inductive FileType where
  | stdin : FileType
  | stdout : FileType
  | named : String → FileType
deriving DecidableEq, Repr

/-- `FilePointer` from `src/filesystem.rs`: the name of a file together
with the single read/write `position` cursor and the `erstat` flag. -/
structure FilePointer where
  file : FileType
  /-- Pointer to where in the current file we are reading. -/
  position : Nat
  erstat : Int
deriving DecidableEq, Repr

/-- `VirtualFileSystem` from `src/filesystem.rs`. -/
structure VirtualFileSystem where
  /-- The files in the virtual file system (`HashMap<String, Vec<u8>>`). -/
  data : List (String × List Byte)
  stdin : List Byte
  stdout : List Byte
  /-- The mapping from file descriptors to file handles. -/
  fdToFilePointer : List FilePointer
deriving DecidableEq, Repr

/-- `HashMap::get`: the value stored for `key`, if any. -/
def lookupData : List (String × List Byte) → String → Option (List Byte)
  | [], _ => none
  | (k, v) :: rest, key => if k = key then some v else lookupData rest key

/-- `HashMap::insert`: replace (or add) the entry for `key`. -/
def insertData (m : List (String × List Byte)) (key : String) (v : List Byte) :
    List (String × List Byte) :=
  (key, v) :: m.filter (fun p => p.1 ≠ key)

/-- The byte vector backing a `FileType` (the
`match fp.file { Stdin => stdin, Stdout => stdout, Named(name) => data.get_mut(name).unwrap() }`
blocks of `filesystem.rs`).  The `unwrap` on a `Named` entry never fires
for descriptors made by `get_file_descriptor`, which inserts an entry
for the name; a missing entry is modelled as `[]`. -/
def getBuffer (v : VirtualFileSystem) (ft : FileType) : List Byte :=
  match ft with
  | .stdin => v.stdin
  | .stdout => v.stdout
  | .named name => (lookupData v.data name).getD []

/-- Store back the byte vector backing a `FileType` (the write-back of
the in-place `&mut` buffer mutations of `filesystem.rs`). -/
def setBuffer (v : VirtualFileSystem) (ft : FileType) (buf : List Byte) :
    VirtualFileSystem :=
  match ft with
  | .stdin => { v with stdin := buf }
  | .stdout => { v with stdout := buf }
  | .named name => { v with data := insertData v.data name buf }

/-- Store back a mutated `FilePointer` at index `i` of the descriptor
table (the write-back of the `&mut FilePointer` mutations). -/
def setFp (v : VirtualFileSystem) (i : Nat) (fp : FilePointer) :
    VirtualFileSystem :=
  { v with fdToFilePointer := v.fdToFilePointer.set i fp }

namespace VirtualFileSystem

/-- The fixed TikZ document that `VirtualFileSystem::new` installs
under the key `input.tex`. -/
def inputTexDefault : List Byte :=
  ("\n\\begin\x7bdocument\x7d\n\\begin\x7btikzpicture\x7d\n\\draw (0,0) circle (1in);\n\\end\x7btikzpicture\x7d\n\\end\x7bdocument\x7d".toList).map Char.toNat

/-- `VirtualFileSystem::new` from `src/filesystem.rs`: take the initial
`data` map and unconditionally `insert` the built-in `input.tex`. -/
def new (data : List (String × List Byte)) : VirtualFileSystem :=
  { data := insertData data "input.tex" inputTexDefault
    stdin := []
    stdout := []
    fdToFilePointer := [] }

/-- `get_file_pointer_by_index` from `src/filesystem.rs`. -/
def getFilePointerByIndex (v : VirtualFileSystem) (fd : Int) :
    Option FilePointer :=
  if fd < 0 then none else v.fdToFilePointer.get? fd.toNat

/-- `write_to_file_by_index` from `src/filesystem.rs`: write `data`
starting at the descriptor's `position`, resizing the buffer with
zeroes if the write runs past its end; a negative or unknown `fd` is a
logged no-op. -/
def writeToFileByIndex (v : VirtualFileSystem) (fd : Int) (data : List Byte) :
    VirtualFileSystem :=
  if fd < 0 then v
  else
    match v.fdToFilePointer.get? fd.toNat with
    | none => v
    | some fp =>
      let buffer := getBuffer v fp.file
      let buffer :=
        if buffer.length < fp.position + data.length then
          buffer ++ List.replicate (fp.position + data.length - buffer.length) 0
        else buffer
      let buffer :=
        buffer.take fp.position ++ data ++ buffer.drop (fp.position + data.length)
      setFp (setBuffer v fp.file buffer) fd.toNat
        { fp with position := fp.position + data.length }

/-- `read_from_file_by_index` from `src/filesystem.rs`: read `length`
bytes at the descriptor's `position`, with the start index clamped to
`buffer.len() - 1` and the end to `buffer.len()`, advancing `position`
by the number of bytes actually returned; a negative or unknown `fd` is
a logged no-op returning `[]`. -/
def readFromFileByIndex (v : VirtualFileSystem) (fd : Int) (length : Nat) :
    List Byte × VirtualFileSystem :=
  if fd < 0 then ([], v)
  else
    match v.fdToFilePointer.get? fd.toNat with
    | none => ([], v)
    | some fp =>
      let buffer := getBuffer v fp.file
      let start := if buffer.length = 0 then 0 else min fp.position (buffer.length - 1)
      let stop := min (fp.position + length) buffer.length
      let data := (buffer.drop start).take (stop - start)
      (data, setFp v fd.toNat { fp with position := fp.position + data.length })

/-- `get_file_byte` from `src/filesystem.rs`: the byte at `offset` of
the file's buffer, without moving the cursor.  A negative `fd`
`panic!`s and an out-of-range `offset` panics via `buffer[offset]`
(both modelled as `none`); an unknown non-negative `fd` logs and
returns `0`. -/
def getFileByte (v : VirtualFileSystem) (fd : Int) (offset : Nat) :
    Option Byte :=
  if fd < 0 then none
  else
    match v.fdToFilePointer.get? fd.toNat with
    | none => some 0
    | some fp => (getBuffer v fp.file).get? offset

/-- `get_length` from `src/filesystem.rs`. -/
def getLength (v : VirtualFileSystem) (fd : Int) : Nat :=
  if fd < 0 then 0
  else
    match v.fdToFilePointer.get? fd.toNat with
    | none => 0
    | some fp => (getBuffer v fp.file).length

/-- `file_pointer_at_eof` from `src/filesystem.rs`. -/
def filePointerAtEof (v : VirtualFileSystem) (fp : FilePointer) : Bool :=
  match fp.file with
  | .stdin => v.stdin.length = 0 || v.stdin.length ≤ fp.position
  | .stdout => false
  | .named name => ((lookupData v.data name).getD []).length ≤ fp.position

/-- `file_pointer_at_eoln` from `src/filesystem.rs`. -/
def filePointerAtEoln (v : VirtualFileSystem) (fp : FilePointer) : Bool :=
  filePointerAtEof v fp ||
    match fp.file with
    | .stdin => v.stdin.get? fp.position = some 10
    | .stdout => false
    | .named name => ((lookupData v.data name).getD []).get? fp.position = some 10

/-- `at_eof_by_index` from `src/filesystem.rs`: negative or unknown
`fd` logs and reports `true`. -/
def atEofByIndex (v : VirtualFileSystem) (fd : Int) : Bool :=
  if fd < 0 then true
  else
    match v.fdToFilePointer.get? fd.toNat with
    | none => true
    | some fp => filePointerAtEof v fp

/-- `next_newline_offset_by_index` from `src/filesystem.rs`. -/
def nextNewlineOffsetByIndex (v : VirtualFileSystem) (fd : Int) : Option Nat :=
  if fd < 0 then none
  else
    match v.fdToFilePointer.get? fd.toNat with
    | none => none
    | some fp =>
      let buffer := getBuffer v fp.file
      if buffer.length ≤ fp.position then some (max buffer.length 1 - 1)
      else
        match (buffer.drop fp.position).findIdx? (fun c => c = 10) with
        | some i => some (i + fp.position)
        | none => some buffer.length

end VirtualFileSystem

/-! ## Guest linear memory and the host imports (`src/texjax_imports.rs`) -/

/-- Guest linear memory, byte-addressed. -/
def Mem := Nat → Byte

/-- A memory of zeroes. -/
def zeroMem : Mem := fun _ => 0

/-- `read_memory` from `src/texjax_imports.rs`: `length` bytes starting
at `pointer`, read one byte at a time. -/
def memRead (m : Mem) (pointer length : Nat) : List Byte :=
  (List.range length).map (fun i => m (pointer + i))

/-- `Memory::write` of a byte slice at `pointer`. -/
def memWrite (m : Mem) (pointer : Nat) : List Byte → Mem
  | [] => m
  | b :: rest => memWrite (fun a => if a = pointer then b else m a) (pointer + 1) rest

/-- `u8_to_u32` from `src/texjax_imports.rs`: `u32::from_ne_bytes` of a
4-byte slice.  Native endianness of the wasm32 host is little-endian. -/
def u8ToU32 (bytes : List Byte) : Nat :=
  match bytes with
  | [a, b, c, d] => a + 256 * b + 65536 * c + 16777216 * d
  | _ => 0

/-- `u32::to_ne_bytes`, little-endian. -/
def u32ToBytes (x : Nat) : List Byte :=
  [x % 256, x / 256 % 256, x / 65536 % 256, x / 16777216 % 256]

/-- `char as u8`: truncation of an `i32` to its low 8 bits. -/
def toU8 (c : Int) : Byte := (c.emod 256).toNat

namespace TexJaxImports
open VirtualFileSystem

/-- The `close` import: "We don't need to close files, so this is a
no-op."  Modelled as the identity on the host state. -/
def closeImport (v : VirtualFileSystem) (_fd : Int) : VirtualFileSystem := v

/-- The `eof` import: `get_file_pointer_by_index(fd).unwrap()` (a trap,
`none`, when `fd` has no descriptor), then `file_pointer_at_eof`. -/
def eofImport (v : VirtualFileSystem) (fd : Int) : Option Int :=
  (getFilePointerByIndex v fd).map (fun fp => if filePointerAtEof v fp then 1 else 0)

/-- The `eoln` import: `unwrap` of the descriptor, then
`file_pointer_at_eoln`. -/
def eolnImport (v : VirtualFileSystem) (fd : Int) : Option Int :=
  (getFilePointerByIndex v fd).map (fun fp => if filePointerAtEoln v fp then 1 else 0)

/-- The `erstat` import: `unwrap` of the descriptor, then its `erstat`
field. -/
def erstatImport (v : VirtualFileSystem) (fd : Int) : Option Int :=
  (getFilePointerByIndex v fd).map (fun fp => fp.erstat)

/-- The `get` import: `unwrap` of the descriptor (a trap when absent),
then `read_from_file_by_index(fd, length)`; an empty read writes the
single byte `0` at `pointer`, otherwise the read bytes are written
there. -/
def getImport (v : VirtualFileSystem) (mem : Mem) (fd : Int)
    (pointer length : Nat) : Option (VirtualFileSystem × Mem) :=
  match getFilePointerByIndex v fd with
  | none => none
  | some _ =>
    let r := readFromFileByIndex v fd length
    let mem' := if r.1.length = 0 then memWrite mem pointer [0] else memWrite mem pointer r.1
    some (r.2, mem')

/-- The `put` import as written in `src/texjax_imports.rs`: the closure
`|a: i32, b: i32, c: i32| println!("put {} {} {}", a, b, c)` — it takes
no `Caller`, touches neither the guest memory nor the file system, and
only logs its three arguments. -/
def putImport (v : VirtualFileSystem) (_a _b _c : Int) : VirtualFileSystem := v

/-- The `printChar` import: `write_to_file_by_index(fd, [char as u8])`. -/
def printCharImport (v : VirtualFileSystem) (fd : Int) (char : Int) :
    VirtualFileSystem :=
  writeToFileByIndex v fd [toU8 char]

/-- The `printNewline` import: `write_to_file_by_index(fd, b"\n")`. -/
def printNewlineImport (v : VirtualFileSystem) (fd : Int) : VirtualFileSystem :=
  writeToFileByIndex v fd [10]

/-- The `printString` import: read the length byte at `pointer` and the
string bytes after it, then (after a log line that does
`get_file_pointer_by_index(fd).unwrap()` — a trap, `none`, when `fd`
has no descriptor) write the bytes to the file.  The intermediate
`String::from_utf8(..).unwrap()` / `as_bytes()` round trip is the
identity on the bytes (its panic on non-UTF-8 input is independent of
the `fd` handling modelled here). -/
def printStringImport (v : VirtualFileSystem) (mem : Mem) (fd : Int)
    (pointer : Nat) : Option VirtualFileSystem :=
  let strLen := (memRead mem pointer 1).headD 0
  let bytes := memRead mem (pointer + 1) strLen
  match getFilePointerByIndex v fd with
  | none => none
  | some _ => some (writeToFileByIndex v fd bytes)

/-- The trailing-space strip of `input_ln`:
`while let Some(&b' ') = input_line.last() { input_line.pop(); }`. -/
def stripTrailingSpaces (l : List Byte) : List Byte :=
  (l.reverse.dropWhile (fun b => b = 32)).reverse

/-- A UTF-8 continuation byte, `0x80 ..= 0xBF`. -/
def isContinuation (b : Byte) : Bool := 128 ≤ b && b ≤ 191

/-- Whether a byte sequence is valid UTF-8, per the table
`String::from_utf8` validates against (RFC 3629: no overlong forms, no
surrogates, nothing above `U+10FFFF`).  This decides whether the
`String::from_utf8(input_line.clone()).unwrap()` in `input_ln`'s final
debug print panics. -/
def validUtf8 : List Byte → Bool
  | [] => true
  | b :: rest =>
    if b ≤ 127 then validUtf8 rest
    else if 194 ≤ b && b ≤ 223 then
      match rest with
      | c1 :: rest2 => isContinuation c1 && validUtf8 rest2
      | [] => false
    else if b = 224 then
      match rest with
      | c1 :: c2 :: rest2 =>
        (160 ≤ c1 && c1 ≤ 191) && isContinuation c2 && validUtf8 rest2
      | _ => false
    else if 225 ≤ b && b ≤ 236 then
      match rest with
      | c1 :: c2 :: rest2 => isContinuation c1 && isContinuation c2 && validUtf8 rest2
      | _ => false
    else if b = 237 then
      match rest with
      | c1 :: c2 :: rest2 =>
        (128 ≤ c1 && c1 ≤ 159) && isContinuation c2 && validUtf8 rest2
      | _ => false
    else if 238 ≤ b && b ≤ 239 then
      match rest with
      | c1 :: c2 :: rest2 => isContinuation c1 && isContinuation c2 && validUtf8 rest2
      | _ => false
    else if b = 240 then
      match rest with
      | c1 :: c2 :: c3 :: rest2 =>
        (144 ≤ c1 && c1 ≤ 191) && isContinuation c2 && isContinuation c3 &&
          validUtf8 rest2
      | _ => false
    else if 241 ≤ b && b ≤ 243 then
      match rest with
      | c1 :: c2 :: c3 :: rest2 =>
        isContinuation c1 && isContinuation c2 && isContinuation c3 && validUtf8 rest2
      | _ => false
    else if b = 244 then
      match rest with
      | c1 :: c2 :: c3 :: rest2 =>
        (128 ≤ c1 && c1 ≤ 143) && isContinuation c2 && isContinuation c3 &&
          validUtf8 rest2
      | _ => false
    else false

/-- The `input_ln` import, translated statement by statement from
`src/texjax_imports.rs` (`max_buf_stack_pointer` and `buf_size` are
accepted but never read, as in the source).  The result is
`(return value, file system, memory)`; `none` models a trap: the
`unwrap` of `next_newline_offset_by_index` / of the descriptor, an
out-of-range `buffer[last]` inside `get_file_byte`, or the
`String::from_utf8(input_line.clone()).unwrap()` in the debug print
that runs after `set_last` and before `return 1`, which panics when the
stripped line is not valid UTF-8. -/
def inputLn (v : VirtualFileSystem) (mem : Mem) (fd : Int) (bypassEoln : Int)
    (bufPointer firstPointer lastPointer : Nat) (_maxBufStackPointer _bufSize : Int) :
    Option (Int × VirtualFileSystem × Mem) :=
  -- first := the u32 at first_pointer; last defaults to first
  let first := u8ToU32 (memRead mem firstPointer 4)
  let mem := memWrite mem lastPointer (u32ToBytes first)
  -- bypassing the eoln character steps the file pointer past one byte
  let fcv := if bypassEoln ≠ 0 then readFromFileByIndex v fd 1 else ([], v)
  let firstChar := fcv.1
  let v := fcv.2
  let firstChar := if firstChar.getLast? = some 10 then [] else firstChar
  let fileLen := getLength v fd
  if atEofByIndex v fd then some (0, v, mem)
  else
    match nextNewlineOffsetByIndex v fd, getFilePointerByIndex v fd with
    | some newlineOffset, some fp =>
      let currentFilePosition := fp.position
      let rv :=
        if currentFilePosition < newlineOffset then
          readFromFileByIndex v fd (newlineOffset - currentFilePosition)
        else ([], v)
      let inputLine := firstChar ++ rv.1
      let v := rv.2
      -- the line is written to guest memory BEFORE the trailing-space strip
      let first2 := u8ToU32 (memRead mem firstPointer 4)
      let mem := memWrite mem (bufPointer + first2) inputLine
      let stripped := stripTrailingSpaces inputLine
      -- `last` is supposed to point to the last non-space character
      let last := (first + stripped.length + 1) % 4294967296
      let fileLen32 := fileLen % 4294967296
      let last := if fileLen32 ≤ last then (fileLen32 + 4294967296 - 1) % 4294967296 else last
      match getFileByte v fd last with
      | none => none
      | some _ =>
        let mem := memWrite mem lastPointer (u32ToBytes last)
        -- the closing debug print does String::from_utf8(input_line).unwrap()
        -- on the by-now-stripped line: a panic on non-UTF-8 bytes
        if validUtf8 stripped then some (1, v, mem) else none
    | _, _ => none

/-- The position `input_ln` starts its line read from: the
`current_file_position` the source reads out of
`get_file_pointer_by_index(fd)` — the same single `position` field that
`read_from_file_by_index` (the byte-mode `get`/`put` path) advances. -/
def inputLnStart (v : VirtualFileSystem) (fd : Int) : Option Nat :=
  (VirtualFileSystem.getFilePointerByIndex v fd).map (fun fp => fp.position)

end TexJaxImports

/-! ## `clean_filename` (`src/texjax_imports.rs`)

Rust `&str` values are modelled as `List Char`; `find`/`rfind` indices
are character indices, which coincide with Rust's byte indices on the
ASCII data these names consist of. -/

/-- `s.starts_with(pre)`. -/
def startsWithChars : List Char → List Char → Bool
  | _, [] => true
  | [], _ :: _ => false
  | c :: cs, p :: ps => c = p && startsWithChars cs ps

/-- `str::find(char)`: index of the first occurrence. -/
def findIdxChar (c : Char) (s : List Char) : Option Nat :=
  s.findIdx? (fun x => x = c)

/-- `str::rfind(char)`: index of the last occurrence. -/
def rfindIdxChar (c : Char) (s : List Char) : Option Nat :=
  match s.reverse.findIdx? (fun x => x = c) with
  | some i => some (s.length - 1 - i)
  | none => none

/-- `str::trim()`: strip leading and trailing whitespace. -/
def trimChars (s : List Char) : List Char :=
  ((s.dropWhile Char.isWhitespace).reverse.dropWhile Char.isWhitespace).reverse

/-- The quote-stripping step of `clean_filename`: if the name starts
with `"`, keep what lies between the first and last quote (everything
after the first quote when it is the only one). -/
def stripQuotes (s : List Char) : List Char :=
  if startsWithChars s ['"'] then
    match findIdxChar '"' s, rfindIdxChar '"' s with
    | some first, some last =>
      if first < last then (s.drop (first + 1)).take (last - (first + 1))
      else s.drop (first + 1)
    | _, _ => s   -- unreachable: `starts_with('"')` guards both `unwrap`s
  else s

/-- The brace-stripping step of `clean_filename`: if the name starts
with `{`, keep what lies between the first `{` and the last `}` (or
everything after the `{` when no `}` exists or none follows it). -/
def stripBraces (s : List Char) : List Char :=
  if startsWithChars s ['\x7b'] then
    match findIdxChar '\x7b' s, rfindIdxChar '\x7d' s with
    | some first, some last =>
      if first < last then (s.drop (first + 1)).take (last - (first + 1))
      else s.drop (first + 1)
    | some first, none => s.drop (first + 1)
    | _, _ => s   -- unreachable: `starts_with('{')` guards the `unwrap`
  else s

/-- `clean_filename` from `src/texjax_imports.rs`: trim, strip one
level of quotes, strip one level of braces, trim again, and rewrite the
special pool-file name `TeXformats:TEX.POOL` to `tex.pool`. -/
def clean_filename (s : List Char) : List Char :=
  if trimChars (stripBraces (stripQuotes (trimChars s)))
      = "TeXformats:TEX.POOL".toList
  then "tex.pool".toList
  else trimChars (stripBraces (stripQuotes (trimChars s)))

/-! ## The SVG device machine (`rust-tikz/src/dvi2svg/svgmachine.rs`)

Only the state the claims touch is embedded: `color`, `color_stack`,
`position`, `position_stack`, `content`, `nb_pages`.  The
floating-point rendering fields (`points_per_dvi_unit`, `paperwidth`,
`paperheight`), the font registry and the `svg_buffer`/`svg_depth`
machinery take no part in the color-stack and position-stack
operations below.  Strings the machine stores are `List Char`. -/

/-- `Position`. `Modelled from the spec:` the `Machine` trait module
(`dvi2svg/machine.rs`) is not among the sources; the spec gives
`Position. { h: i32, v: i32 }`, and `Position::empty()` is taken to be
the origin. -/
structure Position where
  h : Int
  v : Int
deriving DecidableEq, Repr

/-- The embedded state of `SVGMachine`. -/
structure SVGMachine where
  content : List Char
  color : List Char
  colorStack : List (List Char)
  position : Position
  positionStack : List Position
  nbPages : Nat
deriving DecidableEq, Repr

namespace SVGMachine

/-- `SVGMachine::new` (restricted to the embedded fields). -/
def new : SVGMachine :=
  { content := []
    color := "black".toList
    colorStack := []
    position := ⟨0, 0⟩
    positionStack := []
    nbPages := 0 }

/-- `begin_page`: clear the position stack (the position itself is not
reset; the counters and previous-page pointer are unused). -/
def beginPage (m : SVGMachine) (_arr : List Int) (_p : Int) : SVGMachine :=
  { m with positionStack := [] }

/-- `end_page` as written in the source: an empty body under the
comment `//TODO check if position stack is empty`. -/
def endPage (m : SVGMachine) : SVGMachine := m

/-- `push_position`. -/
def pushPosition (m : SVGMachine) : SVGMachine :=
  { m with positionStack := m.position :: m.positionStack }

/-- `pop_position`: `position_stack.pop().unwrap()` — `none` models the
panic on an empty stack. -/
def popPosition (m : SVGMachine) : Option SVGMachine :=
  match m.positionStack with
  | [] => none
  | p :: rest => some { m with position := p, positionStack := rest }

/-- `special_color` from `svgmachine.rs`.  `hex` stands for
`tex_color_to_hex` (defined in `dvi2svg/utils.rs`, which is not among
the sources; the claims below hold for every parser).  On
`color push <spec>` the code pushes the **newly parsed** color onto
`color_stack` and sets `color` to it; on `color pop` it pops the stack
into `color` (`unwrap` panics — `none` — on an empty stack). -/
def specialColor (hex : List Char → List Char) (m : SVGMachine)
    (command : List Char) : Option (SVGMachine × Bool) :=
  if startsWithChars command "color pop".toList then
    match m.colorStack with
    | [] => none
    | c :: rest => some ({ m with color := c, colorStack := rest }, true)
  else if startsWithChars command "color push ".toList then
    let color := hex (command.drop ("color push ".toList).length)
    some ({ m with colorStack := color :: m.colorStack, color := color }, true)
  else
    some (m, false)

end SVGMachine

/-! ## The runner (`rust_tikz/src/wasm_runner.rs`) -/

/-- The `WasmRunner` state relevant to `get_messages`/`get_log`: the
host-state `VirtualFileSystem` stored in the wasm `Store`, and the
has-run flag (`false` at construction, set by `run`, cleared by
`set_input`). -/
structure WasmRunner where
  vfs : VirtualFileSystem
  hasRun : Bool

namespace WasmRunner

/-- `get_messages`: before the engine has run, the error
`"TeX has not run yet."`; afterwards, stdout decoded
(`String::from_utf8_lossy`, abstracted as the `decode` argument). -/
def getMessages (decode : List Byte → String) (r : WasmRunner) :
    Except String String :=
  if !r.hasRun then Except.error "TeX has not run yet."
  else Except.ok (decode r.vfs.stdout)

/-- `get_log`: before the engine has run, the error
`"TeX has not run yet."`; afterwards, the contents of `input.log`
(looked up per the spec's `content_of(stream_id)` — the
`get_file_contents` helper of this runner's VFS variant is not among
the sources) decoded lossily, or a missing-file error. -/
def getLog (decode : List Byte → String) (r : WasmRunner) :
    Except String String :=
  if !r.hasRun then Except.error "TeX has not run yet."
  else
    match lookupData r.vfs.data "input.log" with
    | none => Except.error "Cannot find `input.log`. Maybe compilation failed?"
    | some bytes => Except.ok (decode bytes)

end WasmRunner

section Sanity
open VirtualFileSystem TexJaxImports

example :
    (readFromFileByIndex
      { data := [("f", [65, 66, 67])], stdin := [], stdout := [],
        fdToFilePointer := [⟨.named "f", 0, 0⟩] } 0 2).1 = [65, 66] := by decide

-- reading past the end of a nonempty buffer returns the final byte again
example :
    (readFromFileByIndex
      { data := [("f", [65, 66, 67])], stdin := [], stdout := [],
        fdToFilePointer := [⟨.named "f", 3, 0⟩] } 0 2).1 = [67] := by decide

-- input_ln on "ab \ncd": copies the unstripped "ab " and stores last = 3
example :
    (inputLn
      { data := [("f", [97, 98, 32, 10, 99, 100])], stdin := [], stdout := [],
        fdToFilePointer := [⟨.named "f", 0, 0⟩] } zeroMem 0 0 100 0 4 0 0).map
      (fun r => (r.1, memRead r.2.2 100 3, u8ToU32 (memRead r.2.2 4 4)))
      = some (1, [97, 98, 32], 3) := by decide

-- input_ln on a file whose line is the lone byte 200 (not valid UTF-8):
-- the closing debug print's from_utf8 unwrap panics, a trap
example :
    (inputLn
      { data := [("f", [200, 10])], stdin := [], stdout := [],
        fdToFilePointer := [⟨.named "f", 0, 0⟩] } zeroMem 0 0 100 0 4 0 0).map
      (fun r => r.1) = none := by decide

-- clean_filename strips quotes and braces one level per application
example : clean_filename "\x22test.tex\x22".toList = "test.tex".toList := by decide
example : clean_filename "\x7btest.tex\x7d".toList = "test.tex".toList := by decide
example : clean_filename "\x7b\x7ba\x7d\x7d".toList = "\x7ba\x7d".toList := by decide
example : clean_filename "TeXformats:TEX.POOL".toList = "tex.pool".toList := by decide

-- color push stores the new color on the stack; pop recovers it, not
-- the color from before the push
example :
    ((SVGMachine.specialColor (fun s => s) SVGMachine.new
        "color push red".toList).bind
      (fun r => SVGMachine.specialColor (fun s => s) r.1 "color pop".toList)).map
      (fun r => r.1.color) = some "red".toList := by decide

end Sanity

/-! ## Helper lemmas -/

namespace VirtualFileSystem

theorem getFilePointerByIndex_neg {v : VirtualFileSystem} {fd : Int}
    (hfd : fd < 0) : getFilePointerByIndex v fd = none := by
  simp [getFilePointerByIndex, hfd]

theorem getFilePointerByIndex_nonneg {v : VirtualFileSystem} {fd : Int}
    (hfd : ¬fd < 0) :
    getFilePointerByIndex v fd = v.fdToFilePointer.get? fd.toNat := by
  simp [getFilePointerByIndex, hfd]

/-- `write_to_file_by_index` is a logged no-op on a negative or unknown
descriptor. -/
theorem writeToFileByIndex_of_no_descriptor {v : VirtualFileSystem} {fd : Int}
    (data : List Byte) (h : getFilePointerByIndex v fd = none) :
    writeToFileByIndex v fd data = v := by
  unfold writeToFileByIndex
  by_cases hfd : fd < 0
  · simp [hfd]
  · rw [getFilePointerByIndex_nonneg hfd, List.get?_eq_getElem?] at h
    simp [hfd, h]

/-- `read_from_file_by_index` is a logged no-op returning `[]` on a
negative or unknown descriptor. -/
theorem readFromFileByIndex_of_no_descriptor {v : VirtualFileSystem} {fd : Int}
    (length : Nat) (h : getFilePointerByIndex v fd = none) :
    readFromFileByIndex v fd length = ([], v) := by
  unfold readFromFileByIndex
  by_cases hfd : fd < 0
  · simp [hfd]
  · rw [getFilePointerByIndex_nonneg hfd, List.get?_eq_getElem?] at h
    simp [hfd, h]

/-- `at_eof_by_index` logs and reports `true` on a negative or unknown
descriptor. -/
theorem atEofByIndex_of_no_descriptor {v : VirtualFileSystem} {fd : Int}
    (h : getFilePointerByIndex v fd = none) : atEofByIndex v fd = true := by
  unfold atEofByIndex
  by_cases hfd : fd < 0
  · simp [hfd]
  · rw [getFilePointerByIndex_nonneg hfd, List.get?_eq_getElem?] at h
    simp [hfd, h]

end VirtualFileSystem

theorem list_set_get_self {α : Type} :
    ∀ (l : List α) (n : Nat) (a : α), l.get? n = some a → l.set n a = l
  | [], n, a, h => by simp at h
  | x :: xs, 0, a, h => by
      simp only [List.get?] at h
      cases h
      rfl
  | x :: xs, n + 1, a, h => by
      simp only [List.get?] at h
      simp [List.set, list_set_get_self xs n a h]

theorem list_drop_length_sub_one {α : Type} :
    ∀ (l : List α) (h : l ≠ []), l.drop (l.length - 1) = [l.getLast h]
  | [x], _ => rfl
  | x :: y :: t, _ => by
      have ih := list_drop_length_sub_one (y :: t) (by simp)
      rw [List.getLast_cons (by simp)]
      simpa using ih

/-! ## Claims -/

/-- **C9** (confirmed): `VirtualFileSystem::new` unconditionally inserts the
fixed built-in TikZ document under the key `input.tex`; since `HashMap::insert`
replaces the entry for the key, whatever `input.tex` entry the initial `data`
map held is overwritten, for every initial map. -/
theorem c9_new_overwrites_input_tex (data : List (String × List Byte)) :
    lookupData (VirtualFileSystem.new data).data "input.tex"
      = some VirtualFileSystem.inputTexDefault := by
  simp [VirtualFileSystem.new, insertData, lookupData]

/-- **C10** (confirmed): whenever the runner's has-run flag is false,
`get_messages` and `get_log` both return the error `"TeX has not run yet."`
without consulting stdout or `input.log` (the result does not depend on the
file system or on the decoder). -/
theorem c10_not_run_errors (decode : List Byte → String) (r : WasmRunner)
    (h : r.hasRun = false) :
    WasmRunner.getMessages decode r = Except.error "TeX has not run yet." ∧
    WasmRunner.getLog decode r = Except.error "TeX has not run yet." := by
  constructor <;> simp [WasmRunner.getMessages, WasmRunner.getLog, h]

/-- Witness for `c10_not_run_errors` at a concrete not-yet-run runner. -/
theorem c10_not_run_errors_witness :
    (⟨⟨[], [], [], []⟩, false⟩ : WasmRunner).hasRun = false ∧
    (WasmRunner.getMessages (fun _ => "") ⟨⟨[], [], [], []⟩, false⟩
        = Except.error "TeX has not run yet." ∧
     WasmRunner.getLog (fun _ => "") ⟨⟨[], [], [], []⟩, false⟩
        = Except.error "TeX has not run yet.") :=
  ⟨rfl, c10_not_run_errors (fun _ => "") ⟨⟨[], [], [], []⟩, false⟩ rfl⟩

/-- **C5** (code_bug): the claim — and the spec's import table — say
`put(fd, ptr, len)` writes `mem[ptr..ptr+len]` to the file at `fd`'s byte
cursor.  The code's `put` closure takes no `Caller`, so it can touch neither
guest memory nor the file system: it only prints its three arguments.  For
every state and every argument triple it leaves the file system unchanged. -/
theorem c5_put_import_is_noop (v : VirtualFileSystem) (a b c : Int) :
    TexJaxImports.putImport v a b c = v := rfl

/-- **C6** (code_bug): starting from the machine's initial state (current color
`"black"`, empty color stack), handling `color push red` followed by
`color pop` leaves the current color equal to the *pushed* value, not to the
`"black"` that was current before the push: `special_color` pushes the newly
parsed color onto `color_stack` instead of the previous one, so the push/pop
round trip does not restore the prior color.  (`hex` is instantiated with the
identity; the failure is independent of the color parser.) -/
theorem c6_push_pop_does_not_restore :
    ((SVGMachine.specialColor (fun s => s) SVGMachine.new
        "color push red".toList).bind
      (fun r => SVGMachine.specialColor (fun s => s) r.1 "color pop".toList)).map
      (fun r => r.1.color) = some "red".toList ∧
    SVGMachine.new.color = "black".toList ∧
    "red".toList ≠ "black".toList :=
  ⟨by decide, rfl, by decide⟩

/-- **C7** (code_bug): the claim — matching the `//TODO check if position
stack is empty` comment in the source — says `end_page` checks that
`position_stack` is empty and propagates a fatal error otherwise.  The body of
`end_page` is empty: on a machine whose position stack is unbalanced
(non-empty) it returns the state unchanged and signals nothing. -/
theorem c7_end_page_ignores_unbalanced_stack :
    SVGMachine.endPage { SVGMachine.new with positionStack := [⟨3, 4⟩] }
        = { SVGMachine.new with positionStack := [⟨3, 4⟩] } ∧
    (SVGMachine.endPage
        { SVGMachine.new with positionStack := [⟨3, 4⟩] }).positionStack ≠ [] :=
  ⟨rfl, by decide⟩

/-- **C1** counterexample: the claim says every listed host import completes
without trapping on a negative file descriptor; but `eof` does
`get_file_pointer_by_index(fd).unwrap()`, which panics (traps the guest) at
`fd = -1` on any state — here the freshly constructed empty file system. -/
theorem c1_counterexample :
    TexJaxImports.eofImport ⟨[], [], [], []⟩ (-1) = none := by decide

/-- **C1** (corrected): on a file-descriptor argument that is negative or has
no entry in the descriptor table, the imports `close`, `put`, `printChar` and
`input_ln` complete without trapping — `close` and `put` are logged no-ops,
`printChar` hits the logged no-op branch of `write_to_file_by_index`, and
`input_ln` writes `first` back at `last_ptr` and returns 0 with the file
system untouched — while `eof`, `eoln`, `erstat`, `get` and `printString`
`unwrap()` the missing descriptor and panic, trapping the guest. -/
theorem c1_bad_fd_imports (v : VirtualFileSystem) (mem : Mem) (fd : Int)
    (c pa pb pc byp mb bs : Int) (ptr len bufp firstp lastp : Nat)
    (h : VirtualFileSystem.getFilePointerByIndex v fd = none) :
    TexJaxImports.closeImport v fd = v ∧
    TexJaxImports.putImport v pa pb pc = v ∧
    TexJaxImports.printCharImport v fd c = v ∧
    TexJaxImports.inputLn v mem fd byp bufp firstp lastp mb bs
      = some (0, v, memWrite mem lastp (u32ToBytes (u8ToU32 (memRead mem firstp 4)))) ∧
    TexJaxImports.eofImport v fd = none ∧
    TexJaxImports.eolnImport v fd = none ∧
    TexJaxImports.erstatImport v fd = none ∧
    TexJaxImports.getImport v mem fd ptr len = none ∧
    TexJaxImports.printStringImport v mem fd ptr = none := by
  have hr : VirtualFileSystem.readFromFileByIndex v fd 1 = ([], v) :=
    VirtualFileSystem.readFromFileByIndex_of_no_descriptor 1 h
  have he : VirtualFileSystem.atEofByIndex v fd = true :=
    VirtualFileSystem.atEofByIndex_of_no_descriptor h
  refine ⟨rfl, rfl, VirtualFileSystem.writeToFileByIndex_of_no_descriptor _ h, ?_,
    by simp [TexJaxImports.eofImport, h],
    by simp [TexJaxImports.eolnImport, h],
    by simp [TexJaxImports.erstatImport, h],
    by simp [TexJaxImports.getImport, h],
    by simp [TexJaxImports.printStringImport, h]⟩
  unfold TexJaxImports.inputLn
  by_cases hb : byp = 0
  · simp [hb, he]
  · simp [hb, hr, he]

/-- Witness for `c1_bad_fd_imports` at `fd = -1` on the empty file system. -/
theorem c1_bad_fd_imports_witness :
    VirtualFileSystem.getFilePointerByIndex ⟨[], [], [], []⟩ (-1) = none ∧
    (TexJaxImports.closeImport ⟨[], [], [], []⟩ (-1) = ⟨[], [], [], []⟩ ∧
     TexJaxImports.putImport ⟨[], [], [], []⟩ 0 0 0 = ⟨[], [], [], []⟩ ∧
     TexJaxImports.printCharImport ⟨[], [], [], []⟩ (-1) 65 = ⟨[], [], [], []⟩ ∧
     TexJaxImports.inputLn ⟨[], [], [], []⟩ zeroMem (-1) 0 100 0 4 0 0
       = some (0, ⟨[], [], [], []⟩,
           memWrite zeroMem 4 (u32ToBytes (u8ToU32 (memRead zeroMem 0 4)))) ∧
     TexJaxImports.eofImport ⟨[], [], [], []⟩ (-1) = none ∧
     TexJaxImports.eolnImport ⟨[], [], [], []⟩ (-1) = none ∧
     TexJaxImports.erstatImport ⟨[], [], [], []⟩ (-1) = none ∧
     TexJaxImports.getImport ⟨[], [], [], []⟩ zeroMem (-1) 0 1 = none ∧
     TexJaxImports.printStringImport ⟨[], [], [], []⟩ zeroMem (-1) 0 = none) :=
  ⟨by decide, c1_bad_fd_imports ⟨[], [], [], []⟩ zeroMem (-1) 65 0 0 0 0 0 0 0 1 100 0 4
    (by decide)⟩

/-- **C2** counterexample: on the file `[10, 20]` with the cursor at
position 2 (at the stream length), `read(fd, 1)` returns the final byte
`[20]` — not the empty vector the claim demands — and advances the cursor to
3, beyond the stream length. -/
theorem c2_counterexample :
    (VirtualFileSystem.readFromFileByIndex
        ⟨[("f", [10, 20])], [], [], [⟨.named "f", 2, 0⟩]⟩ 0 1).1 = [20] ∧
    ([20] : List Byte) ≠ [] ∧
    (VirtualFileSystem.getFilePointerByIndex
        (VirtualFileSystem.readFromFileByIndex
          ⟨[("f", [10, 20])], [], [], [⟨.named "f", 2, 0⟩]⟩ 0 1).2 0).map
      (fun fp => fp.position) = some 3 := by
  refine ⟨by decide, by decide, by decide⟩

/-- **C2** (corrected): for a valid descriptor whose cursor is at or beyond
the stream length, `read_from_file_by_index` returns the empty vector with the
state unchanged only when the backing stream is empty; on a nonempty stream
the start index is clamped to `len - 1`, so the read returns the single final
byte and advances the cursor by one (past the stream length). -/
theorem c2_read_at_or_past_end (v : VirtualFileSystem) (fd : Int)
    (fp : FilePointer) (length : Nat)
    (hfp : VirtualFileSystem.getFilePointerByIndex v fd = some fp)
    (hpos : (getBuffer v fp.file).length ≤ fp.position) :
    (getBuffer v fp.file = [] →
       VirtualFileSystem.readFromFileByIndex v fd length = ([], v)) ∧
    (∀ hne : getBuffer v fp.file ≠ [],
       VirtualFileSystem.readFromFileByIndex v fd length
         = ([(getBuffer v fp.file).getLast hne],
            setFp v fd.toNat { fp with position := fp.position + 1 })) := by
  have hfd : ¬fd < 0 := by
    intro hlt
    rw [VirtualFileSystem.getFilePointerByIndex_neg hlt] at hfp
    exact Option.noConfusion hfp
  have hget : v.fdToFilePointer.get? fd.toNat = some fp := by
    rwa [VirtualFileSystem.getFilePointerByIndex_nonneg hfd] at hfp
  rw [List.get?_eq_getElem?] at hget
  constructor
  · intro hempty
    unfold VirtualFileSystem.readFromFileByIndex
    simp only [hfd, if_false, List.get?_eq_getElem?, hget, hempty]
    simp only [List.length_nil, List.drop_nil, List.take_nil, List.length_nil,
      Nat.add_zero]
    have : setFp v fd.toNat fp = v := by
      unfold setFp
      rw [list_set_get_self _ _ _ (by rwa [List.get?_eq_getElem?])]
    simpa using this
  · intro hne
    have hlen : (getBuffer v fp.file).length ≠ 0 := by
      simpa [List.length_eq_zero] using hne
    have hlen1 : 1 ≤ (getBuffer v fp.file).length := Nat.one_le_iff_ne_zero.mpr hlen
    unfold VirtualFileSystem.readFromFileByIndex
    simp only [hfd, if_false, List.get?_eq_getElem?, hget]
    have hstart : min fp.position ((getBuffer v fp.file).length - 1)
        = (getBuffer v fp.file).length - 1 :=
      min_eq_right (by omega)
    have hstop : min (fp.position + length) (getBuffer v fp.file).length
        = (getBuffer v fp.file).length :=
      min_eq_right (by omega)
    have hdiff : (getBuffer v fp.file).length - ((getBuffer v fp.file).length - 1) = 1 := by
      omega
    simp only [hlen, if_false, hstart, hstop, hdiff,
      list_drop_length_sub_one (getBuffer v fp.file) hne]
    simp

/-- Witness for `c2_read_at_or_past_end` on the file `[10, 20]` with the
cursor at 2. -/
theorem c2_read_at_or_past_end_witness :
    VirtualFileSystem.getFilePointerByIndex
        ⟨[("f", [10, 20])], [], [], [⟨.named "f", 2, 0⟩]⟩ 0
      = some ⟨.named "f", 2, 0⟩ ∧
    (getBuffer ⟨[("f", [10, 20])], [], [], [⟨.named "f", 2, 0⟩]⟩
        (.named "f")).length ≤ 2 ∧
    ((getBuffer ⟨[("f", [10, 20])], [], [], [⟨.named "f", 2, 0⟩]⟩ (.named "f") = [] →
       VirtualFileSystem.readFromFileByIndex
           ⟨[("f", [10, 20])], [], [], [⟨.named "f", 2, 0⟩]⟩ 0 1
         = ([], ⟨[("f", [10, 20])], [], [], [⟨.named "f", 2, 0⟩]⟩)) ∧
     (∀ hne : getBuffer ⟨[("f", [10, 20])], [], [], [⟨.named "f", 2, 0⟩]⟩
          (.named "f") ≠ [],
       VirtualFileSystem.readFromFileByIndex
           ⟨[("f", [10, 20])], [], [], [⟨.named "f", 2, 0⟩]⟩ 0 1
         = ([(getBuffer ⟨[("f", [10, 20])], [], [], [⟨.named "f", 2, 0⟩]⟩
               (.named "f")).getLast hne],
            setFp ⟨[("f", [10, 20])], [], [], [⟨.named "f", 2, 0⟩]⟩ 0
              ⟨.named "f", 3, 0⟩))) :=
  ⟨by decide, by decide,
   c2_read_at_or_past_end ⟨[("f", [10, 20])], [], [], [⟨.named "f", 2, 0⟩]⟩ 0
     ⟨.named "f", 2, 0⟩ 1 (by decide) (by decide)⟩

/-- **C3** counterexample: on the file `"ab\ncd"` (`[97, 98, 10, 99, 100]`)
with the cursor at 0, `input_ln` copies a line starting with `97` (`'a'`) into
the guest buffer; after one byte-mode read (`get` of one byte) the same
`input_ln` call copies a line starting with `98` (`'b'`): the byte-mode read
moved line-mode progress, because both modes share the descriptor's single
`position` cursor — there is no separate text cursor to leave unchanged. -/
theorem c3_counterexample :
    (TexJaxImports.inputLn
        ⟨[("f", [97, 98, 10, 99, 100])], [], [], [⟨.named "f", 0, 0⟩]⟩
        zeroMem 0 0 100 0 4 0 0).map (fun r => r.2.2 100) = some 97 ∧
    (TexJaxImports.inputLn
        (VirtualFileSystem.readFromFileByIndex
          ⟨[("f", [97, 98, 10, 99, 100])], [], [], [⟨.named "f", 0, 0⟩]⟩ 0 1).2
        zeroMem 0 0 100 0 4 0 0).map (fun r => r.2.2 100) = some 98 ∧
    (97 : Byte) ≠ 98 := by
  refine ⟨by decide, by decide, by decide⟩

/-- **C3** (corrected): a `FilePointer` holds one cursor, `position`, shared
by byte-mode (`get`/`put`) and line-mode (`input_ln`) reads: a byte-mode read
of one byte advances exactly the position that `input_ln` starts its next
line read from, so interleaving the two modes does perturb line-mode
progress. -/
theorem c3_single_shared_cursor (v : VirtualFileSystem) (fd : Int)
    (fp : FilePointer)
    (hfp : VirtualFileSystem.getFilePointerByIndex v fd = some fp)
    (hlt : fp.position < (getBuffer v fp.file).length) :
    TexJaxImports.inputLnStart v fd = some fp.position ∧
    TexJaxImports.inputLnStart ((VirtualFileSystem.readFromFileByIndex v fd 1).2) fd
      = some (fp.position + 1) := by
  have hfd : ¬fd < 0 := by
    intro hl
    rw [VirtualFileSystem.getFilePointerByIndex_neg hl] at hfp
    exact Option.noConfusion hfp
  have hget : v.fdToFilePointer.get? fd.toNat = some fp := by
    rwa [VirtualFileSystem.getFilePointerByIndex_nonneg hfd] at hfp
  refine ⟨by simp [TexJaxImports.inputLnStart, hfp], ?_⟩
  have hlen : (getBuffer v fp.file).length ≠ 0 := by omega
  have hstart : min fp.position ((getBuffer v fp.file).length - 1) = fp.position :=
    min_eq_left (by omega)
  have hstop : min (fp.position + 1) (getBuffer v fp.file).length = fp.position + 1 :=
    min_eq_left (by omega)
  have hdata : (((getBuffer v fp.file).drop fp.position).take
      (fp.position + 1 - fp.position)).length = 1 := by
    simp only [List.length_take, List.length_drop]
    omega
  rw [List.get?_eq_getElem?] at hget
  have hidx : fd.toNat < v.fdToFilePointer.length := (List.getElem?_eq_some.mp hget).1
  unfold VirtualFileSystem.readFromFileByIndex
  simp only [hfd, if_false, List.get?_eq_getElem?, hget, hlen, hstart, hstop, hdata]
  simp only [TexJaxImports.inputLnStart, VirtualFileSystem.getFilePointerByIndex, hfd,
    if_false, setFp, List.get?_eq_getElem?, List.getElem?_set_self hidx, Option.map_some']

/-- Witness for `c3_single_shared_cursor` on the file `"ab\ncd"` with the
cursor at 0. -/
theorem c3_single_shared_cursor_witness :
    VirtualFileSystem.getFilePointerByIndex
        ⟨[("f", [97, 98, 10, 99, 100])], [], [], [⟨.named "f", 0, 0⟩]⟩ 0
      = some ⟨.named "f", 0, 0⟩ ∧
    (0 : Nat) < (getBuffer
        ⟨[("f", [97, 98, 10, 99, 100])], [], [], [⟨.named "f", 0, 0⟩]⟩
        (.named "f")).length ∧
    (TexJaxImports.inputLnStart
        ⟨[("f", [97, 98, 10, 99, 100])], [], [], [⟨.named "f", 0, 0⟩]⟩ 0
        = some 0 ∧
     TexJaxImports.inputLnStart
        ((VirtualFileSystem.readFromFileByIndex
          ⟨[("f", [97, 98, 10, 99, 100])], [], [], [⟨.named "f", 0, 0⟩]⟩ 0 1).2) 0
        = some 1) :=
  ⟨by decide, by decide,
   c3_single_shared_cursor
     ⟨[("f", [97, 98, 10, 99, 100])], [], [], [⟨.named "f", 0, 0⟩]⟩ 0
     ⟨.named "f", 0, 0⟩ (by decide) (by decide)⟩

theorem head?_dropWhile_false {α : Type} {p : α → Bool} {l : List α} {c : α}
    (h : (l.dropWhile p).head? = some c) : p c = false := by
  have hm := List.head?_dropWhile_not p l
  rw [h] at hm
  exact hm

theorem dropWhile_eq_self_of_head? {α : Type} {p : α → Bool} {l : List α}
    (h : ∀ c, l.head? = some c → p c = false) : l.dropWhile p = l := by
  cases l with
  | nil => rfl
  | cons a t =>
    rw [List.dropWhile_cons_of_neg]
    simp [h a rfl]

/-- `trimChars` in terms of Mathlib's `rdropWhile`. -/
theorem trimChars_eq (s : List Char) :
    trimChars s = List.rdropWhile Char.isWhitespace
      (s.dropWhile Char.isWhitespace) := rfl

/-- The output of `trimChars` has no leading whitespace. -/
theorem dropWhile_trimChars (s : List Char) :
    (trimChars s).dropWhile Char.isWhitespace = trimChars s := by
  apply dropWhile_eq_self_of_head?
  intro c hc
  obtain ⟨r, hr⟩ :=
    List.rdropWhile_prefix Char.isWhitespace (s.dropWhile Char.isWhitespace)
  have hy : (s.dropWhile Char.isWhitespace).head? = some c := by
    rw [← hr, List.head?_append]
    rw [trimChars_eq] at hc
    simp [hc]
  exact head?_dropWhile_false hy

/-- `str::trim` is idempotent. -/
theorem trimChars_idem (s : List Char) :
    trimChars (trimChars s) = trimChars s := by
  have h1 : trimChars (trimChars s)
      = List.rdropWhile Char.isWhitespace
          ((trimChars s).dropWhile Char.isWhitespace) := rfl
  rw [h1, dropWhile_trimChars, trimChars_eq]
  exact List.rdropWhile_idempotent _ _

theorem stripQuotes_of_not_quote {s : List Char}
    (h : startsWithChars s ['"'] = false) : stripQuotes s = s := by
  unfold stripQuotes
  simp [h]

theorem stripBraces_of_not_brace {s : List Char}
    (h : startsWithChars s ['\x7b'] = false) : stripBraces s = s := by
  unfold stripBraces
  simp [h]

/-- `clean_filename` output is already trimmed. -/
theorem clean_filename_trimmed (s : List Char) :
    trimChars (clean_filename s) = clean_filename s := by
  unfold clean_filename
  split
  · decide
  · exact trimChars_idem _

/-- `clean_filename` never outputs the literal `TeXformats:TEX.POOL`. -/
theorem clean_filename_ne_pool (s : List Char) :
    clean_filename s ≠ "TeXformats:TEX.POOL".toList := by
  unfold clean_filename
  split
  · decide
  · assumption

/-- **C8** counterexample: normalization is not idempotent.  On the doubly
braced name `{{a}}` one application strips one level (`{a}`) and a second
application strips another (`a`), so
`normalize(normalize("{{a}}")) ≠ normalize("{{a}}")`. -/
theorem c8_counterexample :
    clean_filename (clean_filename "\x7b\x7ba\x7d\x7d".toList)
      ≠ clean_filename "\x7b\x7ba\x7d\x7d".toList := by decide

/-- **C8** (corrected): the claim holds once the normalized form no longer
begins with a quote or a brace: each application strips at most one level of
quotes/braces, so `normalize` is idempotent exactly on those inputs whose
normalized result does not itself start with `"` or `{` (on doubly wrapped
names such as `{{a}}` a second application strips a further level). -/
theorem c8_clean_filename_conditionally_idempotent (s : List Char)
    (hq : startsWithChars (clean_filename s) ['"'] = false)
    (hb : startsWithChars (clean_filename s) ['\x7b'] = false) :
    clean_filename (clean_filename s) = clean_filename s := by
  have ht := clean_filename_trimmed s
  have hp := clean_filename_ne_pool s
  generalize hX : clean_filename s = X at ht hp hq hb ⊢
  unfold clean_filename
  rw [ht, stripQuotes_of_not_quote hq, stripBraces_of_not_brace hb, ht, if_neg hp]

/-- Witness for `c8_clean_filename_conditionally_idempotent` at the plain
name `ok.tex`. -/
theorem c8_conditionally_idempotent_witness :
    startsWithChars (clean_filename "ok.tex".toList) ['"'] = false ∧
    startsWithChars (clean_filename "ok.tex".toList) ['\x7b'] = false ∧
    clean_filename (clean_filename "ok.tex".toList)
      = clean_filename "ok.tex".toList :=
  ⟨by decide, by decide,
   c8_clean_filename_conditionally_idempotent "ok.tex".toList (by decide) (by decide)⟩

theorem memWrite_apply_lt (bs : List Byte) :
    ∀ (m : Mem) (p a : Nat), a < p → memWrite m p bs a = m a := by
  induction bs with
  | nil => intro m p a _; rfl
  | cons b rest ih =>
    intro m p a h
    show memWrite (fun x => if x = p then b else m x) (p + 1) rest a = m a
    rw [ih _ (p + 1) a (by omega)]
    rw [if_neg (by omega)]

theorem memWrite_apply_ge (bs : List Byte) :
    ∀ (m : Mem) (p a : Nat), p + bs.length ≤ a → memWrite m p bs a = m a := by
  induction bs with
  | nil => intro m p a _; rfl
  | cons b rest ih =>
    intro m p a h
    simp only [List.length_cons] at h
    show memWrite (fun x => if x = p then b else m x) (p + 1) rest a = m a
    rw [ih _ (p + 1) a (by omega)]
    rw [if_neg (by omega)]

theorem memRead_succ (m : Mem) (p n : Nat) :
    memRead m p (n + 1) = m p :: memRead m (p + 1) n := by
  simp only [memRead, List.range_succ_eq_map, List.map_cons, List.map_map]
  refine congrArg₂ _ (by simp) ?_
  apply List.map_congr_left
  intro i _
  simp only [Function.comp]
  congr 1
  omega

theorem memRead_memWrite_left (bs : List Byte) (m : Mem) (p q n : Nat)
    (h : q + n ≤ p) : memRead (memWrite m p bs) q n = memRead m q n := by
  unfold memRead
  apply List.map_congr_left
  intro i hi
  simp only [List.mem_range] at hi
  rw [memWrite_apply_lt bs _ p _ (by omega)]

theorem memRead_memWrite_right (bs : List Byte) (m : Mem) (p q n : Nat)
    (h : p + bs.length ≤ q) : memRead (memWrite m p bs) q n = memRead m q n := by
  unfold memRead
  apply List.map_congr_left
  intro i _
  rw [memWrite_apply_ge bs _ p _ (by omega)]

theorem memRead_memWrite_self (bs : List Byte) :
    ∀ (m : Mem) (p : Nat), memRead (memWrite m p bs) p bs.length = bs := by
  induction bs with
  | nil => intro m p; rfl
  | cons b rest ih =>
    intro m p
    show memRead (memWrite (fun x => if x = p then b else m x) (p + 1) rest) p
        (rest.length + 1) = b :: rest
    rw [memRead_succ]
    refine congrArg₂ _ ?_ (ih _ (p + 1))
    rw [memWrite_apply_lt rest _ (p + 1) p (by omega)]
    simp

theorem u8ToU32_u32ToBytes (x : Nat) :
    u8ToU32 (u32ToBytes x) = x % 4294967296 := by
  simp only [u8ToU32, u32ToBytes]
  omega

theorem findIdx?_newline {l r : List Byte} (h : ¬10 ∈ l) :
    ∀ i, (l ++ 10 :: r).findIdx? (fun c => c = 10) i = some (l.length + i) := by
  induction l with
  | nil => intro i; simp
  | cons a t ih =>
    intro i
    simp only [List.cons_append, List.findIdx?_cons]
    have ha : ¬a = 10 := fun hc => h (by simp [hc])
    rw [if_neg (by simp [ha])]
    rw [ih (fun hc => h (by simp [hc])) (i + 1)]
    congr 1
    simp
    omega

theorem stripTrailingSpaces_length_le (l : List Byte) :
    (TexJaxImports.stripTrailingSpaces l).length ≤ l.length := by
  simp only [TexJaxImports.stripTrailingSpaces, List.length_reverse]
  calc (l.reverse.dropWhile fun b => b = 32).length
      ≤ l.reverse.length := (List.dropWhile_sublist _).length_le
    _ = l.length := List.length_reverse l

theorem memRead_memWrite_u32 (m : Mem) (p x : Nat) :
    memRead (memWrite m p (u32ToBytes x)) p 4 = u32ToBytes x := by
  have h := memRead_memWrite_self (u32ToBytes x) m p
  simpa [u32ToBytes] using h

/-- **C4** counterexample: on the line `"ab "` (file `"ab \ncd"`, `first = 0`)
`input_ln` writes the **unstripped** bytes `[97, 98, 32]` — trailing space
included — into the guest buffer and stores `3 = first + len + 1` at
`last_ptr`, where the claim demands the stripped bytes and `first + len = 2`. -/
theorem c4_counterexample :
    ((TexJaxImports.inputLn
        ⟨[("f", [97, 98, 32, 10, 99, 100])], [], [], [⟨.named "f", 0, 0⟩]⟩
        zeroMem 0 0 100 0 4 0 0).map
      (fun r => (r.1, memRead r.2.2 100 3, u8ToU32 (memRead r.2.2 4 4)))
      = some (1, [97, 98, 32], 3)) ∧ (3 : Nat) ≠ 0 + 2 :=
  ⟨by decide, by decide⟩

/-- **C4** (corrected): when `input_ln` reads a line (file `line ++ "\n" ++
rest`, cursor at 0, `first = 0` and `last_ptr`, `buf_ptr` disjoint as in the
engine) whose stripped bytes are valid UTF-8 — otherwise the closing debug
print's `String::from_utf8(..).unwrap()` panics instead of returning — it
returns 1, copies the **unstripped** line bytes to `mem[buf_ptr + first ..]`
(the memory write happens before the trailing-0x20 strip), and stores into
the 32-bit integer at `last_ptr` not `first + len` but `first + len + 1`
(`len` the stripped length), clamped to `file_len - 1` as soon as it reaches
`file_len`. -/
theorem c4_input_ln_line_semantics (line rest : List Byte)
    (h10 : ¬10 ∈ line) (hne : line ≠ [])
    (hutf : TexJaxImports.validUtf8 (TexJaxImports.stripTrailingSpaces line) = true)
    (hsize : line.length + rest.length + 2 < 4294967296) :
    (TexJaxImports.inputLn
        ⟨[("f", line ++ 10 :: rest)], [], [], [⟨.named "f", 0, 0⟩]⟩
        zeroMem 0 0 100 0 4 0 0).map
      (fun r => (r.1, memRead r.2.2 100 line.length, u8ToU32 (memRead r.2.2 4 4)))
      = some (1, line,
          if line.length + (rest.length + 1)
              ≤ (TexJaxImports.stripTrailingSpaces line).length + 1
          then line.length + rest.length
          else (TexJaxImports.stripTrailingSpaces line).length + 1) := by
  set V : VirtualFileSystem :=
    ⟨[("f", line ++ 10 :: rest)], [], [], [⟨.named "f", 0, 0⟩]⟩ with hV
  set V' : VirtualFileSystem :=
    ⟨[("f", line ++ 10 :: rest)], [], [], [⟨.named "f", line.length, 0⟩]⟩ with hV'
  have hpos0 : 0 < line.length := List.length_pos.mpr hne
  have hSL : (TexJaxImports.stripTrailingSpaces line).length ≤ line.length :=
    stripTrailingSpaces_length_le line
  have hfirst : u8ToU32 (memRead zeroMem 0 4) = 0 := by decide
  have hfirst2 :
      u8ToU32 (memRead (memWrite zeroMem 4 (u32ToBytes 0)) 0 4) = 0 := by decide
  have hfp : V.getFilePointerByIndex 0 = some ⟨.named "f", 0, 0⟩ := by
    simp [hV, VirtualFileSystem.getFilePointerByIndex]
  have hlen : V.getLength 0 = line.length + (rest.length + 1) := by
    simp [hV, VirtualFileSystem.getLength, getBuffer, lookupData]
  have heof : V.atEofByIndex 0 = false := by
    simp [hV, VirtualFileSystem.atEofByIndex, VirtualFileSystem.filePointerAtEof,
      lookupData]
  have hfind : (line ++ 10 :: rest).findIdx? (fun c => c = 10) 0
      = some line.length := by
    have h := findIdx?_newline (r := rest) h10 0
    simpa using h
  have hnno : V.nextNewlineOffsetByIndex 0 = some line.length := by
    simp [hV, VirtualFileSystem.nextNewlineOffsetByIndex, getBuffer, lookupData,
      hfind]
  have hstop : min (0 + line.length) (line ++ 10 :: rest).length
      = line.length := by
    simp only [Nat.zero_add, List.length_append]
    exact min_eq_left (by omega)
  have hread : VirtualFileSystem.readFromFileByIndex V 0 line.length
      = (line, V') := by
    simp [hV, hV', VirtualFileSystem.readFromFileByIndex, getBuffer, lookupData,
      setFp, hstop, List.take_left]
  have hgfb : ∀ off, VirtualFileSystem.getFileByte V' 0 off
      = (line ++ 10 :: rest).get? off := by
    intro off
    simp [hV', VirtualFileSystem.getFileByte, getBuffer, lookupData]
  have hsl32 : ((TexJaxImports.stripTrailingSpaces line).length + 1) % 4294967296
      = (TexJaxImports.stripTrailingSpaces line).length + 1 :=
    Nat.mod_eq_of_lt (by omega)
  have hfl32 : (line.length + (rest.length + 1)) % 4294967296
      = line.length + (rest.length + 1) :=
    Nat.mod_eq_of_lt (by omega)
  have hclamp : (line.length + (rest.length + 1) + 4294967295) % 4294967296
      = line.length + rest.length := by
    omega
  by_cases hcl : line.length + (rest.length + 1)
      ≤ (TexJaxImports.stripTrailingSpaces line).length + 1
  · obtain ⟨bb, hb⟩ : ∃ bb,
        VirtualFileSystem.getFileByte V' 0 (line.length + rest.length)
          = some bb := by
      rw [hgfb, List.get?_eq_getElem?]
      exact ⟨_, List.getElem?_eq_getElem (by simp)⟩
    have hmain : TexJaxImports.inputLn V zeroMem 0 0 100 0 4 0 0
        = some (1, V', memWrite (memWrite (memWrite zeroMem 4 (u32ToBytes 0))
            100 line) 4 (u32ToBytes (line.length + rest.length))) := by
      simp [TexJaxImports.inputLn, hfirst, hfirst2, hfp, hlen, heof, hnno, hread,
        hb, hsl32, hfl32, hclamp, hcl, hpos0, hutf]
    rw [hmain, Option.map_some']
    rw [memRead_memWrite_right _ _ _ _ _ (by norm_num [u32ToBytes]),
      memRead_memWrite_self, memRead_memWrite_u32, u8ToU32_u32ToBytes,
      Nat.mod_eq_of_lt (a := line.length + rest.length) (by omega), if_pos hcl]
  · obtain ⟨bb, hb⟩ : ∃ bb,
        VirtualFileSystem.getFileByte V' 0
            ((TexJaxImports.stripTrailingSpaces line).length + 1)
          = some bb := by
      rw [hgfb, List.get?_eq_getElem?]
      exact ⟨_, List.getElem?_eq_getElem (by simp; omega)⟩
    have hmain : TexJaxImports.inputLn V zeroMem 0 0 100 0 4 0 0
        = some (1, V', memWrite (memWrite (memWrite zeroMem 4 (u32ToBytes 0))
            100 line) 4
            (u32ToBytes ((TexJaxImports.stripTrailingSpaces line).length + 1))) := by
      simp [TexJaxImports.inputLn, hfirst, hfirst2, hfp, hlen, heof, hnno, hread,
        hb, hsl32, hfl32, hclamp, hcl, hpos0, hutf]
    rw [hmain, Option.map_some']
    rw [memRead_memWrite_right _ _ _ _ _ (by norm_num [u32ToBytes]),
      memRead_memWrite_self, memRead_memWrite_u32, u8ToU32_u32ToBytes,
      Nat.mod_eq_of_lt
        (a := (TexJaxImports.stripTrailingSpaces line).length + 1) (by omega),
      if_neg hcl]

/-- Witness for `c4_input_ln_line_semantics` on the line `"ab "` with file
tail `"cd"`. -/
theorem c4_input_ln_line_semantics_witness :
    (¬10 ∈ ([97, 98, 32] : List Byte)) ∧ (([97, 98, 32] : List Byte) ≠ []) ∧
    TexJaxImports.validUtf8 (TexJaxImports.stripTrailingSpaces [97, 98, 32])
      = true ∧
    ([97, 98, 32] : List Byte).length + ([99, 100] : List Byte).length + 2
      < 4294967296 ∧
    (TexJaxImports.inputLn
        ⟨[("f", [97, 98, 32] ++ 10 :: [99, 100])], [], [],
          [⟨.named "f", 0, 0⟩]⟩ zeroMem 0 0 100 0 4 0 0).map
      (fun r => (r.1, memRead r.2.2 100 ([97, 98, 32] : List Byte).length,
        u8ToU32 (memRead r.2.2 4 4)))
      = some (1, [97, 98, 32],
          if ([97, 98, 32] : List Byte).length + (([99, 100] : List Byte).length + 1)
              ≤ (TexJaxImports.stripTrailingSpaces [97, 98, 32]).length + 1
          then ([97, 98, 32] : List Byte).length + ([99, 100] : List Byte).length
          else (TexJaxImports.stripTrailingSpaces [97, 98, 32]).length + 1) :=
  ⟨by decide, by decide, by decide, by decide,
   c4_input_ln_line_semantics [97, 98, 32] [99, 100] (by decide) (by decide)
     (by decide) (by decide)⟩
